import Mathlib

/-!
Verification of the speech-ai-tool repository: a shallow embedding of the
frontend TypeScript sources (src/src) and, where a claim depends on the Rust
backend that is not among the given files, of the backend behaviour as the
specification describes it.  Each claim of the specification is settled by a
theorem below.
-/

namespace SpeechAITool

/-- The `PipelineStatus` union of src/src/lib/types.ts: the six status strings
of the pipeline state machine. -/
inductive PipelineStatus where
  | idle
  | recording
  | transcribing
  | cleaning
  | done
  | error
deriving DecidableEq, Repr

/-- The `PipelineStatusEvent` interface of src/src/lib/types.ts: the payload of
every `pipeline-status` event.  Optional string fields become `Option String`
(`none` models an absent field). -/
structure PipelineStatusEvent where
  status : PipelineStatus
  raw_text : Option String
  cleaned_text : Option String
  error : Option String
deriving DecidableEq, Repr

/-- The four pieces of React state held by `useAppState` (the frontend hook
that consumes `pipeline-status` events): `status`, `rawText`, `cleanedText`
and `error`. -/
structure AppState where
  status : PipelineStatus
  rawText : String
  cleanedText : String
  error : Option String
deriving DecidableEq, Repr

/-- JavaScript truthiness of an optional string field: `undefined` and the
empty string are falsy, every other string is truthy. -/
def truthy : Option String → Bool
  | none => false
  | some s => s ≠ ""

/-- The `handler` callback of `useAppState`: sets `status` from the event,
sets `rawText` / `cleanedText` / `error` only when the corresponding event
field is truthy, and finally clears `error` whenever the event's status is
`idle` or `recording`.  The state setters are modelled by sequential record
updates, in the order the source performs them. -/
def handlePipelineStatus (s : AppState) (e : PipelineStatusEvent) : AppState :=
  let s1 : AppState := { s with status := e.status }
  let s2 : AppState :=
    if truthy e.raw_text then { s1 with rawText := e.raw_text.getD "" } else s1
  let s3 : AppState :=
    if truthy e.cleaned_text then { s2 with cleanedText := e.cleaned_text.getD "" } else s2
  let s4 : AppState :=
    if truthy e.error then { s3 with error := e.error } else s3
  if e.status = .idle ∨ e.status = .recording then { s4 with error := none } else s4

/-- The `FewShotExample` interface of src/src/lib/types.ts: one (input, output)
pair guiding the cleanup model. -/
structure FewShotExample where
  input : String
  output : String
deriving DecidableEq, Repr

/-- The `api_type` union of `LlmConfig` in src/src/lib/types.ts: the field is
typed `"ollama" | "openai"`, so it has exactly these two inhabitants. -/
inductive ApiType where
  | ollama
  | openai
deriving DecidableEq, Repr

/-- The literal string each `api_type` member is written as in the source
(types.ts line 39 and the radio buttons of the LLM settings component). -/
def apiTypeTag : ApiType → String
  | .ollama => "ollama"
  | .openai => "openai"

/-- The `LlmConfig` interface of src/src/lib/types.ts. -/
structure LlmConfig where
  endpoint : String
  model : String
  system_prompt : String
  api_type : ApiType
  few_shot_examples : List FewShotExample
deriving DecidableEq, Repr

/-- The two cleanup backends of spec section 4.4 (the Ollama native chat API
and the OpenAI-compatible API). -/
inductive CleanupBackend where
  | ollamaChat
  | openaiCompatible
deriving DecidableEq, Repr

/-- Modelled from the spec: the cleanup adapter's backend dispatch lives in the
Rust backend, which is not among the given sources.  Per spec section 4.4 the
backend is selected purely by `apiType`. -/
def selectBackend (config : LlmConfig) : CleanupBackend :=
  match config.api_type with
  | .ollama => .ollamaChat
  | .openai => .openaiCompatible

/-- `saveEdit` of the LLM settings component (src/unnamed/part_001): copies the
examples array and overwrites the entry at `editingIdx` with the edited pair.
The component only edits indices of existing entries, and for an index below
the length the JS element assignment on the copy is `List.set`. -/
def saveEdit (examples : List FewShotExample) (editingIdx : Nat)
    (editInput editOutput : String) : List FewShotExample :=
  examples.set editingIdx { input := editInput, output := editOutput }

/-- The index filter of `deleteExample`: `examples.filter((_, i) => i !== idx)`,
with `n` the index of the current head. -/
def filterIdxNe (idx : Nat) : Nat → List FewShotExample → List FewShotExample
  | _, [] => []
  | n, x :: xs =>
    if n = idx then filterIdxNe idx (n + 1) xs else x :: filterIdxNe idx (n + 1) xs

/-- `deleteExample` of the LLM settings component: keeps every entry whose
index differs from `idx`. -/
def deleteExample (examples : List FewShotExample) (idx : Nat) : List FewShotExample :=
  filterIdxNe idx 0 examples

/-- `addExample` of the LLM settings component: appends a fresh empty pair at
the end of the examples list. -/
def addExample (examples : List FewShotExample) : List FewShotExample :=
  examples ++ [{ input := "", output := "" }]

/-- The `ModelInfo` interface of src/src/components/ModelDownload.tsx:
`{name, size, description, downloaded}`. -/
structure ModelInfo where
  name : String
  size : String
  description : String
  downloaded : Bool
deriving DecidableEq, Repr

/-- The state update `handleDownload` performs after `downloadWhisperModel(name)`
resolves successfully:
`prev.map((m) => (m.name === name ? { ...m, downloaded: true } : m))`. -/
def markDownloaded (models : List ModelInfo) (name : String) : List ModelInfo :=
  models.map (fun m => if m.name = name then { m with downloaded := true } else m)

/-- The `TranscriptionRecord` interface of src/src/lib/types.ts.  `created_at`
is an ISO timestamp string in the source and `duration_secs` a JS number; the
model uses naturals for both so that "oldest by createdAt" is the numeric
order (the claims never compute with these fields). -/
structure TranscriptionRecord where
  id : String
  raw_text : String
  cleaned_text : String
  created_at : Nat
  duration_secs : Nat
  model_used : String
deriving DecidableEq, Repr

/-- Modelled from the spec: the History Store lives in the Rust backend
(SQLite), which is not among the given sources.  The store is kept as a list
ordered oldest-first; `trimOldest` drops records from the front (the oldest)
until at most `maxItems` remain, per spec section 4.5. -/
def trimOldest (maxItems : Nat) (store : List TranscriptionRecord) :
    List TranscriptionRecord :=
  store.drop (store.length - maxItems)

/-- Modelled from the spec: `append` of the History Store (spec section 4.5)
inserts the record and then evicts the oldest record(s) so that
`count ≤ historyMaxItems` holds. -/
def historyAppend (maxItems : Nat) (store : List TranscriptionRecord)
    (r : TranscriptionRecord) : List TranscriptionRecord :=
  trimOldest maxItems (store ++ [r])

/-- A concrete record for evaluating the history-store theorems: `created_at`
is the first argument, all text fields the second. -/
def sampleRecord (t : Nat) (txt : String) : TranscriptionRecord :=
  { id := txt, raw_text := txt, cleaned_text := txt, created_at := t,
    duration_secs := 1, model_used := "small" }

/-- The request failures the spec's Cleanup Adapter recovers from
(spec section 4.4): connection refused, timeout, non-success response.  The
fourth recoverable outcome — a successful request whose completion is empty —
is the `Except.ok ""` reply. -/
inductive CleanupFailure where
  | connectionRefused
  | timeout
  | nonSuccessResponse
deriving DecidableEq, Repr

/-- Modelled from the spec: the Cleanup Adapter lives in the Rust backend,
which is not among the given sources.  `clean rawText reply` (spec section
4.4) returns the cleaned text together with a "fallback used" flag: a failed
request or an empty completion returns the original `rawText` unchanged with
the flag set, never raising to the caller. -/
def clean (rawText : String) (reply : Except CleanupFailure String) : String × Bool :=
  match reply with
  | .ok completion => if completion = "" then (rawText, true) else (completion, false)
  | .error _ => (rawText, true)

/-- A cleanup attempt that failed: any of the failure modes, or a successful
request whose completion is empty. -/
def cleanupFailed (reply : Except CleanupFailure String) : Prop :=
  (∃ f, reply = .error f) ∨ reply = .ok ""

/-- The `PipelineState` of spec section 3: the status together with the
optional `rawText`, `cleanedText` and `errorMessage` it carries. -/
structure PipelineState where
  status : PipelineStatus
  rawText : Option String
  cleanedText : Option String
  errorMessage : Option String
deriving DecidableEq, Repr

/-- The initial (and post-observation) pipeline state: `Idle`, no texts, no
error. -/
def initPipeline : PipelineState :=
  { status := .idle, rawText := none, cleanedText := none, errorMessage := none }

/-- The metadata of a transcription record that the Orchestrator supplies when
it writes history (id, timestamp, duration, model name). -/
structure RecordMeta where
  id : String
  created_at : Nat
  duration_secs : Nat
  model_used : String
deriving DecidableEq, Repr

/-- The record the Orchestrator appends on `Cleaning --> Done` (spec section
4.1): the session's raw and cleaned text under the supplied metadata. -/
def mkRecord (meta : RecordMeta) (raw cleanedTxt : String) : TranscriptionRecord :=
  { id := meta.id, raw_text := raw, cleaned_text := cleanedTxt,
    created_at := meta.created_at, duration_secs := meta.duration_secs,
    model_used := meta.model_used }

/-- The inputs that drive one Orchestrator transition (spec section 4.1):
hotkey press (with the Model Lifecycle Manager's readiness), hotkey release
(with the captured buffer), completion of transcription, completion of the
cleanup call (with the metadata for the history write), and the end of the
Done/Error observation window. -/
inductive OrchEvent where
  | press (modelReady : Bool)
  | release (buffer : List Nat)
  | transcribed (result : Except String String)
  | cleaned (reply : Except CleanupFailure String) (meta : RecordMeta)
  | observed
deriving Repr

/-- The Orchestrator's full state: the pipeline state, the number of sessions
currently in flight (accepted press not yet past its observation window), and
the history store's contents. -/
structure OrchState where
  pipeline : PipelineState
  inFlight : Nat
  history : List TranscriptionRecord
deriving DecidableEq, Repr

/-- The Orchestrator's start state: idle, no session, empty history. -/
def initOrch : OrchState :=
  { pipeline := initPipeline, inFlight := 0, history := [] }

/-- Modelled from the spec: the Pipeline Orchestrator is the Rust backend's
state machine (spec section 4.1), not among the given sources.  A press is
accepted only in `Idle` (elsewhere it is a no-op, not queued); `Idle --press-->
Recording` requires a ready model, else `Error` without capture; `Recording
--release--> Transcribing` unless the buffer is empty or below the minimum,
which gives `Error` ("no audio captured") with nothing written; transcription
failure gives `Error`; the cleanup reply always gives `Done`, appending the
history record synchronously (a cleanup failure falls back to the raw text);
`Done`/`Error` revert to `Idle` after the observation window.  `inFlight` is
incremented by an accepted press and decremented when the session's
observation window closes. -/
def orchStep (minBytes maxItems : Nat) (s : OrchState) (e : OrchEvent) : OrchState :=
  match e with
  | .press modelReady =>
    if s.pipeline.status = .idle then
      if modelReady then
        { s with
          pipeline := { s.pipeline with status := .recording, errorMessage := none },
          inFlight := s.inFlight + 1 }
      else
        { s with
          pipeline :=
            { s.pipeline with
              status := .error,
              errorMessage := some "no active model" },
          inFlight := s.inFlight + 1 }
    else s
  | .release buffer =>
    if s.pipeline.status = .recording then
      if buffer = [] ∨ buffer.length < minBytes then
        { s with
          pipeline :=
            { s.pipeline with
              status := .error,
              errorMessage := some "no audio captured" } }
      else
        { s with pipeline := { s.pipeline with status := .transcribing } }
    else s
  | .transcribed result =>
    if s.pipeline.status = .transcribing then
      match result with
      | .ok text =>
        { s with pipeline := { s.pipeline with status := .cleaning, rawText := some text } }
      | .error msg =>
        { s with
          pipeline := { s.pipeline with status := .error, errorMessage := some msg } }
    else s
  | .cleaned reply meta =>
    if s.pipeline.status = .cleaning then
      match s.pipeline.rawText with
      | some raw =>
        let cleanedPair := clean raw reply
        { s with
          pipeline :=
            { s.pipeline with
              status := .done,
              cleanedText := some cleanedPair.1 },
          history := historyAppend maxItems s.history (mkRecord meta raw cleanedPair.1) }
      | none => s
    else s
  | .observed =>
    if s.pipeline.status = .done ∨ s.pipeline.status = .error then
      { s with pipeline := initPipeline, inFlight := s.inFlight - 1 }
    else s

/-- Running the Orchestrator on a whole event sequence from its start state. -/
def runOrch (minBytes maxItems : Nat) (events : List OrchEvent) : OrchState :=
  events.foldl (orchStep minBytes maxItems) initOrch

/-- The session-count invariant: a session is in flight exactly while the
pipeline is away from `Idle`. -/
def inFlightInv (s : OrchState) : Prop :=
  s.inFlight = if s.pipeline.status = PipelineStatus.idle then 0 else 1

/-- The stop branch of `toggleRecording` in
src/src/components/AudioDeviceSelect.tsx: `sizeKb` is
`Math.round(wavBytes.length / 1024)`; JavaScript `Math.round` on a
non-negative argument is `floor(x + 1/2)`, so `sizeKb = (len + 512) / 1024`
in natural-number division.  `sizeKb < 1` reports the no-audio message,
otherwise the success message with the size in KB. -/
def micTestMessage (wavLen : Nat) : String :=
  let sizeKb := (wavLen + 512) / 1024
  if sizeKb < 1 then "No audio captured. Check your microphone."
  else "Mic works! Captured " ++ toString sizeKb ++ " KB of audio."

/-- The explicitly listed keys of the `CODE_TO_RDEV` map in
src/src/components/HotkeyInput.tsx (every entry maps a code to itself). -/
def baseCodes : List String :=
  ["ControlLeft", "ControlRight", "ShiftLeft", "ShiftRight", "AltLeft", "AltRight",
   "MetaLeft", "MetaRight", "Space", "Enter", "Tab", "Escape", "Backspace", "Delete",
   "Insert", "Home", "End", "PageUp", "PageDown", "CapsLock", "ArrowUp", "ArrowDown",
   "ArrowLeft", "ArrowRight", "Minus", "Equal", "BracketLeft", "BracketRight",
   "Backslash", "Semicolon", "Quote", "Backquote", "Comma", "Period", "Slash",
   "NumpadDecimal", "NumpadAdd", "NumpadSubtract", "NumpadMultiply", "NumpadDivide",
   "NumpadEnter"]

/-- The generated `CODE_TO_RDEV` keys: KeyA–KeyZ. -/
def letterCodes : List String :=
  (List.range 26).map (fun i => "Key" ++ String.mk [Char.ofNat (65 + i)])

/-- The generated `CODE_TO_RDEV` keys: Digit0–Digit9. -/
def digitCodes : List String :=
  (List.range 10).map (fun i => "Digit" ++ toString i)

/-- The generated `CODE_TO_RDEV` keys: F1–F12. -/
def functionKeyCodes : List String :=
  (List.range 12).map (fun i => "F" ++ toString (i + 1))

/-- The generated `CODE_TO_RDEV` keys: Numpad0–Numpad9. -/
def numpadDigitCodes : List String :=
  (List.range 10).map (fun i => "Numpad" ++ toString i)

/-- All keys of `CODE_TO_RDEV`. -/
def codeToRdevKeys : List String :=
  baseCodes ++ letterCodes ++ digitCodes ++ functionKeyCodes ++ numpadDigitCodes

/-- The `CODE_TO_RDEV` lookup: every entry of the map sends a
`KeyboardEvent.code` to the identical rdev name, so the lookup is the
identity on recognized codes and `none` (JS `undefined`) elsewhere. -/
def codeToRdev (code : String) : Option String :=
  if code ∈ codeToRdevKeys then some code else none

/-- The rebinding-time state of the `HotkeyInput` component: whether the
component is editing (paused/rebinding mode), the accumulated held keys in
first-seen order (the JS `Set` keeps insertion order), the committed binding
(the `onChange` target), and the backend pause flag driven by `pauseHotkey`. -/
structure HotkeyEditState where
  editing : Bool
  held : List String
  binding : String
  paused : Bool
deriving DecidableEq, Repr

/-- `startEditing` of `HotkeyInput`: enters editing mode with an empty held
set and pauses the backend hotkey listener. -/
def startEditing (s : HotkeyEditState) : HotkeyEditState :=
  { s with editing := true, held := [], paused := true }

/-- `handleKeyDown` of `HotkeyInput` (listeners exist only while editing): an
unrecognized code is ignored; a recognized code is added to the held set —
kept once, in insertion order, as the JS `Set` does. -/
def handleKeyDown (s : HotkeyEditState) (code : String) : HotkeyEditState :=
  if s.editing then
    match codeToRdev code with
    | none => s
    | some k => { s with held := if k ∈ s.held then s.held else s.held ++ [k] }
  else s

/-- `handleKeyUp` of `HotkeyInput`: with at least one accumulated key it
commits `Array.from(held).join("+")` (insertion order) as the new binding,
clears the held set and stops editing, which also unpauses the backend
listener; with zero accumulated keys it does nothing. -/
def handleKeyUp (s : HotkeyEditState) : HotkeyEditState :=
  if s.editing then
    if s.held ≠ [] then
      { s with
        binding := String.intercalate "+" s.held,
        held := [],
        editing := false,
        paused := false }
    else s
  else s

lemma handlePipelineStatus_rawText (s : AppState) (e : PipelineStatusEvent) :
    (handlePipelineStatus s e).rawText =
      if truthy e.raw_text then e.raw_text.getD "" else s.rawText := by
  unfold handlePipelineStatus
  by_cases h1 : truthy e.raw_text = true <;>
    by_cases h2 : truthy e.cleaned_text = true <;>
      by_cases h3 : truthy e.error = true <;>
        by_cases h4 : (e.status = PipelineStatus.idle ∨ e.status = PipelineStatus.recording) <;>
          simp [h1, h2, h3, h4]

lemma handlePipelineStatus_cleanedText (s : AppState) (e : PipelineStatusEvent) :
    (handlePipelineStatus s e).cleanedText =
      if truthy e.cleaned_text then e.cleaned_text.getD "" else s.cleanedText := by
  unfold handlePipelineStatus
  by_cases h1 : truthy e.raw_text = true <;>
    by_cases h2 : truthy e.cleaned_text = true <;>
      by_cases h3 : truthy e.error = true <;>
        by_cases h4 : (e.status = PipelineStatus.idle ∨ e.status = PipelineStatus.recording) <;>
          simp [h1, h2, h3, h4]

lemma handlePipelineStatus_error (s : AppState) (e : PipelineStatusEvent) :
    (handlePipelineStatus s e).error =
      if e.status = PipelineStatus.idle ∨ e.status = PipelineStatus.recording then none
      else if truthy e.error then e.error else s.error := by
  unfold handlePipelineStatus
  by_cases h1 : truthy e.raw_text = true <;>
    by_cases h2 : truthy e.cleaned_text = true <;>
      by_cases h3 : truthy e.error = true <;>
        by_cases h4 : (e.status = PipelineStatus.idle ∨ e.status = PipelineStatus.recording) <;>
          simp [h1, h2, h3, h4]

/-- Claim C9: for every pipeline-status event whose status is `idle` or
`recording`, after the frontend state handler runs the `error` field of the
app state is `none`, even when the event itself carries a non-empty error
field (the error is set from the event and then unconditionally cleared for
these two statuses). -/
theorem C9_idle_recording_clears_error (s : AppState) (e : PipelineStatusEvent)
    (h : e.status = .idle ∨ e.status = .recording) :
    (handlePipelineStatus s e).error = none := by
  rw [handlePipelineStatus_error, if_pos h]

theorem C9_witness :
    ((handlePipelineStatus
        { status := .error, rawText := "r", cleanedText := "c", error := some "old" }
        { status := .idle, raw_text := none, cleaned_text := none,
          error := some "boom" }).error = none) :=
  C9_idle_recording_clears_error _ _ (Or.inl rfl)

/-- Claim C10: for every pipeline-status event whose `raw_text` (respectively
`cleaned_text`) field is absent or the empty string, the displayed `rawText`
(respectively `cleanedText`) state is unchanged by the handler; only events
carrying a non-empty string update the displayed text. -/
theorem C10_empty_fields_keep_text (s : AppState) (e : PipelineStatusEvent) :
    ((e.raw_text = none ∨ e.raw_text = some "") →
      (handlePipelineStatus s e).rawText = s.rawText) ∧
    ((e.cleaned_text = none ∨ e.cleaned_text = some "") →
      (handlePipelineStatus s e).cleanedText = s.cleanedText) ∧
    (∀ t : String, t ≠ "" → e.raw_text = some t →
      (handlePipelineStatus s e).rawText = t) ∧
    (∀ t : String, t ≠ "" → e.cleaned_text = some t →
      (handlePipelineStatus s e).cleanedText = t) := by
  refine ⟨?_, ?_, ?_, ?_⟩
  · rintro (h | h) <;> rw [handlePipelineStatus_rawText] <;> simp [h, truthy]
  · rintro (h | h) <;> rw [handlePipelineStatus_cleanedText] <;> simp [h, truthy]
  · intro t ht h
    rw [handlePipelineStatus_rawText]
    simp [h, truthy, ht]
  · intro t ht h
    rw [handlePipelineStatus_cleanedText]
    simp [h, truthy, ht]

theorem C10_witness :
    ((handlePipelineStatus
        { status := .done, rawText := "kept", cleanedText := "alsokept", error := none }
        { status := .done, raw_text := some "", cleaned_text := none,
          error := none }).rawText = "kept") ∧
    ((handlePipelineStatus
        { status := .done, rawText := "kept", cleanedText := "alsokept", error := none }
        { status := .done, raw_text := some "", cleaned_text := none,
          error := none }).cleanedText = "alsokept") :=
  ⟨(C10_empty_fields_keep_text _ _).1 (Or.inr rfl),
   (C10_empty_fields_keep_text _ _).2.1 (Or.inl rfl)⟩

/-- Claim C6, as the spec states it, is false on the code: the `api_type`
field's values are the literal strings "ollama" and "openai" (types.ts line
39), not "local-chat-api" and "openai-compatible" — here checked at the
concrete member `ApiType.ollama`. -/
theorem C6_counterexample :
    ¬ (apiTypeTag ApiType.ollama = "local-chat-api" ∨
       apiTypeTag ApiType.ollama = "openai-compatible") := by
  decide

/-- Claim C6 (amended): for every `LlmConfig` value, the `api_type` field takes
exactly one of the two values "ollama" or "openai" (the code's names for the
local chat API and the OpenAI-compatible API), and the cleanup backend is
selected purely by this field (two configs agreeing on `api_type` select the
same backend). -/
theorem C6_apiType_two_values (c : LlmConfig) :
    (apiTypeTag c.api_type = "ollama" ∨ apiTypeTag c.api_type = "openai") ∧
    (apiTypeTag c.api_type = "ollama" ↔ apiTypeTag c.api_type ≠ "openai") ∧
    (∀ c₂ : LlmConfig, c.api_type = c₂.api_type → selectBackend c = selectBackend c₂) := by
  refine ⟨?_, ?_, ?_⟩
  · cases h : c.api_type <;> simp [apiTypeTag]
  · cases h : c.api_type <;> decide
  · intro c₂ he
    unfold selectBackend
    rw [he]

theorem C6_witness :
    selectBackend
        { endpoint := "http://localhost:11434", model := "mistral",
          system_prompt := "", api_type := ApiType.ollama, few_shot_examples := [] } =
      selectBackend
        { endpoint := "http://other:11434", model := "llama3",
          system_prompt := "clean this", api_type := ApiType.ollama,
          few_shot_examples := [{ input := "um hi", output := "Hi." }] } :=
  (C6_apiType_two_values _).2.2 _ rfl

lemma filterIdxNe_eq_take_append_drop (idx : Nat) :
    ∀ (l : List FewShotExample) (n : Nat),
      filterIdxNe idx n l =
        if idx < n then l else l.take (idx - n) ++ l.drop (idx - n + 1) := by
  intro l
  induction l with
  | nil => intro n; simp [filterIdxNe]
  | cons x xs ih =>
    intro n
    by_cases hn : n = idx
    · subst hn
      rw [filterIdxNe, if_pos rfl, ih (n + 1), if_pos (Nat.lt_succ_self n)]
      simp
    · rw [filterIdxNe, if_neg hn, ih (n + 1)]
      by_cases hlt : idx < n
      · rw [if_pos (Nat.lt_succ_of_lt hlt), if_pos hlt]
      · have hgt : n < idx := Nat.lt_of_le_of_ne (Nat.le_of_not_lt hlt) hn
        rw [if_neg (by omega), if_neg hlt]
        have h1 : idx - n = (idx - (n + 1)) + 1 := by omega
        rw [h1]
        simp only [List.take_succ_cons, List.drop_succ_cons, List.cons_append]

/-- Claim C7: the order of few-shot examples is preserved by every editing
operation — saving an edit at index `i` replaces only the pair at index `i`
leaving all other pairs and their order unchanged, deleting at index `i`
removes exactly that pair preserving the relative order of the rest, and
adding appends a new pair at the end. -/
theorem C7_examples_order_preserved :
    (∀ (l : List FewShotExample) (i : Nat) (inp outp : String), i < l.length →
      (saveEdit l i inp outp).length = l.length ∧
      (saveEdit l i inp outp)[i]? = some { input := inp, output := outp } ∧
      (∀ j, j ≠ i → (saveEdit l i inp outp)[j]? = l[j]?)) ∧
    (∀ (l : List FewShotExample) (i : Nat),
      deleteExample l i = l.take i ++ l.drop (i + 1)) ∧
    (∀ l : List FewShotExample,
      (addExample l).length = l.length + 1 ∧
      (∀ j, j < l.length → (addExample l)[j]? = l[j]?) ∧
      (addExample l)[l.length]? = some { input := "", output := "" }) := by
  refine ⟨?_, ?_, ?_⟩
  · intro l i inp outp hi
    refine ⟨List.length_set .., List.getElem?_set_self hi, ?_⟩
    intro j hj
    exact List.getElem?_set_ne (Ne.symm hj)
  · intro l i
    rw [deleteExample, filterIdxNe_eq_take_append_drop, if_neg (Nat.not_lt_zero i)]
    simp
  · intro l
    refine ⟨by simp [addExample], ?_, ?_⟩
    · intro j hj
      simp [addExample, List.getElem?_append_left hj]
    · simp [addExample]

theorem C7_witness :
    (saveEdit [{ input := "a", output := "b" }, { input := "c", output := "d" }]
        1 "x" "y").length = 2 ∧
    (saveEdit [{ input := "a", output := "b" }, { input := "c", output := "d" }]
        1 "x" "y")[0]? = some { input := "a", output := "b" } ∧
    (addExample [{ input := "a", output := "b" }])[1]? =
      some { input := "", output := "" } :=
  ⟨(C7_examples_order_preserved.1 _ 1 "x" "y" (by decide)).1,
   (C7_examples_order_preserved.1 _ 1 "x" "y" (by decide)).2.2 0 (by decide),
   (C7_examples_order_preserved.2.2 [{ input := "a", output := "b" }]).2.2⟩

/-- Claim C8: after `downloadWhisperModel(name)` completes successfully, the
model-list entry named `name` has `downloaded = true` with its other fields
preserved, and every other entry in the list is unchanged (name, size,
description and downloaded flag all preserved). -/
theorem C8_markDownloaded_frame (models : List ModelInfo) (name : String) :
    (markDownloaded models name).length = models.length ∧
    (∀ (i : Nat) (m : ModelInfo), models[i]? = some m → m.name = name →
      (markDownloaded models name)[i]? =
        some { name := m.name, size := m.size, description := m.description,
               downloaded := true }) ∧
    (∀ (i : Nat) (m : ModelInfo), models[i]? = some m → m.name ≠ name →
      (markDownloaded models name)[i]? = some m) := by
  refine ⟨List.length_map .., ?_, ?_⟩
  · intro i m hm hname
    rw [markDownloaded, List.getElem?_map, hm]
    simp [hname]
  · intro i m hm hname
    rw [markDownloaded, List.getElem?_map, hm]
    simp [hname]

theorem C8_witness :
    (markDownloaded
        [{ name := "tiny", size := "75 MB", description := "Fastest", downloaded := false },
         { name := "small", size := "466 MB", description := "Moderate", downloaded := false }]
        "small")[1]? =
      some { name := "small", size := "466 MB", description := "Moderate",
             downloaded := true } ∧
    (markDownloaded
        [{ name := "tiny", size := "75 MB", description := "Fastest", downloaded := false },
         { name := "small", size := "466 MB", description := "Moderate", downloaded := false }]
        "small")[0]? =
      some { name := "tiny", size := "75 MB", description := "Fastest",
             downloaded := false } :=
  ⟨(C8_markDownloaded_frame _ "small").2.1 1 _ rfl rfl,
   (C8_markDownloaded_frame _ "small").2.2 0 _ rfl (by decide)⟩

lemma length_trimOldest (maxItems : Nat) (store : List TranscriptionRecord) :
    (trimOldest maxItems store).length = min maxItems store.length := by
  rw [trimOldest, List.length_drop]
  omega

lemma trimOldest_of_le (maxItems : Nat) (store : List TranscriptionRecord)
    (h : store.length ≤ maxItems) : trimOldest maxItems store = store := by
  rw [trimOldest, Nat.sub_eq_zero_of_le h, List.drop_zero]

lemma trimOldest_append (maxItems : Nat) (l m : List TranscriptionRecord) :
    trimOldest maxItems (trimOldest maxItems l ++ m) = trimOldest maxItems (l ++ m) := by
  unfold trimOldest
  rw [← List.drop_append_of_le_length (Nat.sub_le l.length maxItems)]
  rw [List.drop_drop]
  congr 1
  simp only [List.length_drop, List.length_append]
  omega

lemma foldl_historyAppend (maxItems : Nat) (rs : List TranscriptionRecord) :
    ∀ (store : List TranscriptionRecord), store.length ≤ maxItems →
      List.foldl (historyAppend maxItems) store rs = trimOldest maxItems (store ++ rs) := by
  induction rs with
  | nil =>
    intro store h
    rw [List.foldl_nil, List.append_nil, trimOldest_of_le _ _ h]
  | cons r rs ih =>
    intro store h
    rw [List.foldl_cons]
    rw [ih (historyAppend maxItems store r)
        (by rw [historyAppend, length_trimOldest]; omega)]
    rw [historyAppend, trimOldest_append]
    congr 1
    simp

/-- Claim C3: the History Store count never exceeds `historyMaxItems` after any
append; appending N+1 records when `historyMaxItems = N` leaves exactly N
records, with the oldest record(s) — FIFO by `createdAt`, assuming records are
appended in `createdAt` order — evicted first. -/
theorem C3_history_bounded :
    (∀ (n : Nat) (store : List TranscriptionRecord) (r : TranscriptionRecord),
      (historyAppend n store r).length ≤ n) ∧
    (∀ (n : Nat) (rs : List TranscriptionRecord), rs.length = n + 1 →
      List.foldl (historyAppend n) [] rs = rs.drop 1 ∧
      (List.foldl (historyAppend n) [] rs).length = n) ∧
    (∀ (n : Nat) (r₀ : TranscriptionRecord) (rest : List TranscriptionRecord),
      (r₀ :: rest).length = n + 1 →
      (r₀ :: rest).Pairwise (fun a b => a.created_at ≤ b.created_at) →
      ∀ q ∈ List.foldl (historyAppend n) [] (r₀ :: rest),
        r₀.created_at ≤ q.created_at) := by
  have hdrop : ∀ (n : Nat) (rs : List TranscriptionRecord), rs.length = n + 1 →
      List.foldl (historyAppend n) [] rs = rs.drop 1 := by
    intro n rs hlen
    rw [foldl_historyAppend n rs [] (Nat.zero_le n), List.nil_append, trimOldest]
    congr 1
    omega
  refine ⟨?_, ?_, ?_⟩
  · intro n store r
    rw [historyAppend, length_trimOldest]
    omega
  · intro n rs hlen
    refine ⟨hdrop n rs hlen, ?_⟩
    rw [hdrop n rs hlen, List.length_drop, hlen]
    omega
  · intro n r₀ rest hlen hsorted hq
    rw [hdrop n _ hlen, List.drop_one, List.tail_cons]
    intro hmem
    exact (List.pairwise_cons.mp hsorted).1 hq hmem

theorem C3_witness :
    (List.foldl (historyAppend 1) [] [sampleRecord 1 "a", sampleRecord 2 "b"] =
      [sampleRecord 2 "b"]) ∧
    (List.foldl (historyAppend 1) [] [sampleRecord 1 "a", sampleRecord 2 "b"]).length = 1 :=
  ⟨(C3_history_bounded.2.1 1 [sampleRecord 1 "a", sampleRecord 2 "b"] rfl).1,
   (C3_history_bounded.2.1 1 [sampleRecord 1 "a", sampleRecord 2 "b"] rfl).2⟩

lemma orchStep_inFlightInv (minBytes maxItems : Nat) (s : OrchState) (e : OrchEvent)
    (h : inFlightInv s) : inFlightInv (orchStep minBytes maxItems s e) := by
  unfold inFlightInv at h ⊢
  cases e with
  | press modelReady =>
    by_cases hi : s.pipeline.status = PipelineStatus.idle <;>
      cases modelReady <;> simp_all [orchStep]
  | release buffer =>
    by_cases hr : s.pipeline.status = PipelineStatus.recording
    · rw [hr] at h
      simp only [reduceCtorEq, if_false] at h
      by_cases hb : (buffer = [] ∨ buffer.length < minBytes) <;>
        simp [orchStep, hr, hb, h]
    · simp only [orchStep, if_neg hr]
      exact h
  | transcribed result =>
    by_cases ht : s.pipeline.status = PipelineStatus.transcribing <;>
      cases result <;> simp_all [orchStep]
  | cleaned reply meta =>
    by_cases hc : s.pipeline.status = PipelineStatus.cleaning
    · cases hraw : s.pipeline.rawText <;> simp_all [orchStep]
    · simp_all [orchStep]
  | observed =>
    by_cases hd : (s.pipeline.status = PipelineStatus.done ∨
        s.pipeline.status = PipelineStatus.error)
    · rcases hd with hd | hd <;> simp_all [orchStep, initPipeline]
    · simp_all [orchStep]

lemma runOrch_inFlightInv (minBytes maxItems : Nat) (events : List OrchEvent) :
    inFlightInv (runOrch minBytes maxItems events) := by
  rw [runOrch]
  have hinit : inFlightInv initOrch := by simp [inFlightInv, initOrch, initPipeline]
  generalize initOrch = s0 at hinit ⊢
  induction events generalizing s0 with
  | nil => exact hinit
  | cons e es ih =>
    rw [List.foldl_cons]
    exact ih _ (orchStep_inFlightInv minBytes maxItems s0 e hinit)

/-- Claim C1: for every sequence of press/release (and completion) events, the
Orchestrator never holds two sessions concurrently — a press received while
the pipeline is not `Idle` is a no-op (rejected, not queued), so at most one
session is in flight at any time. -/
theorem C1_at_most_one_session (minBytes maxItems : Nat) :
    (∀ events : List OrchEvent, (runOrch minBytes maxItems events).inFlight ≤ 1) ∧
    (∀ (s : OrchState) (modelReady : Bool),
      s.pipeline.status ≠ PipelineStatus.idle →
      orchStep minBytes maxItems s (OrchEvent.press modelReady) = s) := by
  constructor
  · intro events
    have h := runOrch_inFlightInv minBytes maxItems events
    unfold inFlightInv at h
    rw [h]
    split <;> omega
  · intro s modelReady hne
    simp [orchStep, hne]

theorem C1_witness :
    ((runOrch 512 100 [OrchEvent.press true, OrchEvent.press true,
        OrchEvent.press false]).inFlight ≤ 1) ∧
    (orchStep 512 100
        { pipeline := { status := .recording, rawText := none, cleanedText := none,
                        errorMessage := none },
          inFlight := 1, history := [] } (OrchEvent.press true) =
      { pipeline := { status := .recording, rawText := none, cleanedText := none,
                      errorMessage := none },
        inFlight := 1, history := [] }) :=
  ⟨(C1_at_most_one_session 512 100).1 _,
   (C1_at_most_one_session 512 100).2 _ true (by decide)⟩

/-- Claim C2: for every session in which the Cleanup Adapter fails (connection
refused, timeout, non-success response, or empty completion), `clean` returns
the original `rawText` unchanged (signalling fallback), the session still
reaches `Done` (not `Error`), and the appended history record has
`cleaned_text` equal to `raw_text`. -/
theorem C2_cleanup_fallback (minBytes maxItems : Nat) :
    (∀ (raw : String) (reply : Except CleanupFailure String),
      cleanupFailed reply → clean raw reply = (raw, true)) ∧
    (∀ (s : OrchState) (raw : String) (reply : Except CleanupFailure String)
        (meta : RecordMeta),
      s.pipeline.status = PipelineStatus.cleaning →
      s.pipeline.rawText = some raw →
      cleanupFailed reply →
      (orchStep minBytes maxItems s (OrchEvent.cleaned reply meta)).pipeline.status =
        PipelineStatus.done ∧
      (orchStep minBytes maxItems s (OrchEvent.cleaned reply meta)).pipeline.cleanedText =
        some raw ∧
      (orchStep minBytes maxItems s (OrchEvent.cleaned reply meta)).history =
        historyAppend maxItems s.history (mkRecord meta raw raw) ∧
      (mkRecord meta raw raw).cleaned_text = (mkRecord meta raw raw).raw_text) := by
  have hclean : ∀ (raw : String) (reply : Except CleanupFailure String),
      cleanupFailed reply → clean raw reply = (raw, true) := by
    intro raw reply hfail
    rcases hfail with ⟨f, rfl⟩ | rfl <;> simp [clean]
  refine ⟨hclean, ?_⟩
  intro s raw reply meta hc hraw hfail
  have hstep : orchStep minBytes maxItems s (OrchEvent.cleaned reply meta) =
      { s with
        pipeline := { s.pipeline with status := .done, cleanedText := some raw },
        history := historyAppend maxItems s.history (mkRecord meta raw raw) } := by
    simp [orchStep, hc, hraw, hclean raw reply hfail]
  rw [hstep]
  exact ⟨rfl, rfl, rfl, rfl⟩

theorem C2_witness :
    (clean "um hello world" (Except.error CleanupFailure.timeout) =
      ("um hello world", true)) ∧
    ((orchStep 512 100
        { pipeline := { status := .cleaning, rawText := some "um hello world",
                        cleanedText := none, errorMessage := none },
          inFlight := 1, history := [] }
        (OrchEvent.cleaned (Except.error CleanupFailure.timeout)
          { id := "1", created_at := 7, duration_secs := 2,
            model_used := "small" })).pipeline.status = PipelineStatus.done) :=
  ⟨(C2_cleanup_fallback 512 100).1 "um hello world" _ (Or.inl ⟨_, rfl⟩),
   ((C2_cleanup_fallback 512 100).2 _ "um hello world" _ _ rfl rfl
      (Or.inl ⟨_, rfl⟩)).1⟩

lemma micTest_success_ne_noAudio (x : String) :
    "Mic works! Captured " ++ x ++ " KB of audio." ≠
      "No audio captured. Check your microphone." := by
  intro h
  have hM : ("Mic works! Captured " ++ x ++ " KB of audio.").data.head? = some 'M' := by
    rw [String.data_append, String.data_append, List.append_assoc]
    rfl
  rw [h] at hM
  have hN : ("No audio captured. Check your microphone." : String).data.head? =
      some 'N' := rfl
  rw [hN] at hM
  exact absurd hM (by decide)

/-- Claim C5: if the buffer obtained by stopping capture is empty or below the
minimum size, the session's outcome is the "no audio captured" error and no
`TranscriptionRecord` is created; in the microphone test the no-audio message
is reported exactly when `Math.round(length/1024) < 1` — that is, exactly for
lengths below 512 bytes — and otherwise the success message with the size in
KB is reported. -/
theorem C5_no_audio_captured (minBytes maxItems : Nat) :
    (∀ (s : OrchState) (buffer : List Nat),
      s.pipeline.status = PipelineStatus.recording →
      (buffer = [] ∨ buffer.length < minBytes) →
      (orchStep minBytes maxItems s (OrchEvent.release buffer)).pipeline.status =
        PipelineStatus.error ∧
      (orchStep minBytes maxItems s (OrchEvent.release buffer)).pipeline.errorMessage =
        some "no audio captured" ∧
      (orchStep minBytes maxItems s (OrchEvent.release buffer)).history = s.history) ∧
    (∀ wavLen : Nat,
      (micTestMessage wavLen = "No audio captured. Check your microphone." ↔
        (wavLen + 512) / 1024 < 1) ∧
      ((wavLen + 512) / 1024 < 1 ↔ wavLen < 512)) ∧
    (∀ wavLen : Nat, 512 ≤ wavLen →
      micTestMessage wavLen =
        "Mic works! Captured " ++ toString ((wavLen + 512) / 1024) ++ " KB of audio.") := by
  refine ⟨?_, ?_, ?_⟩
  · intro s buffer hr hb
    simp [orchStep, hr, hb]
  · intro wavLen
    constructor
    · constructor
      · intro hmsg
        by_contra hge
        rw [micTestMessage] at hmsg
        simp only [if_neg hge] at hmsg
        exact micTest_success_ne_noAudio _ hmsg
      · intro hlt
        rw [micTestMessage]
        simp only [if_pos hlt]
    · omega
  · intro wavLen hge
    rw [micTestMessage]
    simp only [if_neg (by omega : ¬ (wavLen + 512) / 1024 < 1)]

theorem C5_witness :
    ((orchStep 512 100
        { pipeline := { status := .recording, rawText := none, cleanedText := none,
                        errorMessage := none },
          inFlight := 1, history := [] } (OrchEvent.release [])).pipeline.status =
      PipelineStatus.error) ∧
    (micTestMessage 100 = "No audio captured. Check your microphone." ↔
      (100 + 512) / 1024 < 1) ∧
    (micTestMessage 2048 =
      "Mic works! Captured " ++ toString ((2048 + 512) / 1024) ++ " KB of audio.") :=
  ⟨((C5_no_audio_captured 512 100).1 _ [] rfl (Or.inl rfl)).1,
   ((C5_no_audio_captured 512 100).2.1 100).1,
   (C5_no_audio_captured 512 100).2.2 2048 (by omega)⟩

/-- Claim C4: in rebinding (paused/editing) mode, the first key-up event with
at least one accumulated held key commits the held set as the new binding —
the held keys joined with "+" in first-seen (insertion) order — and exits
paused mode, while a key-up with zero accumulated keys commits nothing (an
empty combination is rejected); key-down events maintain the first-seen
order: a new recognized key is appended at the end, an already-held key
leaves the set unchanged, an unrecognized code is ignored. -/
theorem C4_rebinding_commit :
    (∀ s : HotkeyEditState, s.editing = true → s.held ≠ [] →
      handleKeyUp s =
        { s with
          binding := String.intercalate "+" s.held,
          held := [],
          editing := false,
          paused := false }) ∧
    (∀ s : HotkeyEditState, s.editing = true → s.held = [] → handleKeyUp s = s) ∧
    (∀ (s : HotkeyEditState) (code k : String), s.editing = true →
      codeToRdev code = some k → k ∉ s.held →
      (handleKeyDown s code).held = s.held ++ [k] ∧
      (handleKeyDown s code).editing = true ∧
      (handleKeyDown s code).binding = s.binding) ∧
    (∀ (s : HotkeyEditState) (code k : String), s.editing = true →
      codeToRdev code = some k → k ∈ s.held → handleKeyDown s code = s) ∧
    (∀ (s : HotkeyEditState) (code : String), codeToRdev code = none →
      handleKeyDown s code = s) := by
  refine ⟨?_, ?_, ?_, ?_, ?_⟩
  · intro s he hne
    simp [handleKeyUp, he, hne]
  · intro s he hnil
    simp [handleKeyUp, he, hnil]
  · intro s code k he hk hmem
    simp [handleKeyDown, he, hk, hmem]
  · intro s code k he hk hmem
    cases s
    simp_all [handleKeyDown]
  · intro s code hk
    by_cases he : s.editing = true <;> simp [handleKeyDown, he, hk]

theorem C4_witness :
    handleKeyUp
        { editing := true, held := ["ShiftLeft", "KeyA"], binding := "Space",
          paused := true } =
      { editing := false, held := [], binding := "ShiftLeft+KeyA", paused := false } := by
  have h := C4_rebinding_commit.1
    { editing := true, held := ["ShiftLeft", "KeyA"], binding := "Space", paused := true }
    rfl (by decide)
  rw [h]
  rfl

end SpeechAITool

